import Mathlib

/-!
Verification of the route-compare repository's core module `src/commute.py`
against its natural-language specification.

The Python module is shallowly embedded: JSON dictionaries become structures
with `Option`-typed fields (a `none` field models an absent key), the HTTP
transport becomes an explicit outcome parameter, Python floats become `ℚ`,
and code that can raise an exception returns an `Option`.
-/

namespace RouteCompare

/-! ## Provider data model (the JSON shapes `commute.py` reads)

`navigationInstruction.{instructions, maneuver}` are read with
`dict.get` defaults (lines 177-179), so both fields are optional. -/

structure NavigationInstruction where
  instructions : Option String
  maneuver : Option String
deriving DecidableEq

structure Step where
  navigationInstruction : Option NavigationInstruction
deriving DecidableEq

structure Leg where
  steps : Option (List Step)
deriving DecidableEq

structure PolylineObj where
  encodedPolyline : Option String
deriving DecidableEq

structure Route where
  distanceMeters : Option Nat
  duration : Option String
  summary : Option String
  polyline : Option PolylineObj
  legs : Option (List Leg)
deriving DecidableEq

/-- The provider's JSON body, as far as `compute_routes` inspects it:
a dictionary whose `routes` key, when present and non-null, holds a list. -/
structure ProviderData where
  routes : Option (List Route)
deriving DecidableEq

/-- The outcome of the `requests.post` / `raise_for_status` / `response.json()`
sequence in `compute_routes` (lines 70-75).  `transportError` models a
connection or timeout failure raised by `requests.post`; `httpStatusError`
models the `requests.exceptions.HTTPError` raised by `raise_for_status` on a
non-2xx status; `jsonDecodeError` models the
`requests.exceptions.JSONDecodeError` raised by `response.json()` on a
malformed body (since requests 2.27), which subclasses both
`json.JSONDecodeError` and — via `requests.exceptions.InvalidJSONError` —
`requests.exceptions.RequestException`, as `transportError` and
`httpStatusError` do; `okResponse` carries the decoded JSON of a 2xx
response. -/
inductive HttpOutcome where
  | transportError (cause : String)
  | httpStatusError (cause : String)
  | jsonDecodeError (cause : String)
  | okResponse (data : ProviderData)
deriving DecidableEq

/-- The dictionary returned by `compute_routes` and consumed by
`format_route_output`: each field models one possible key of the Python dict
(`none` = key absent).  `compute_routes` only ever stores `True` under
`"success"`, so that field is modelled as an optional `Bool`. -/
structure ResultDict where
  error : Option String
  success : Option Bool
  time_field : Option String
  time_value : Option String
  routes : Option (List Route)
deriving DecidableEq

/-! ## compute_routes (lines 24-90) -/

/-- Python truthiness of an optional string: `if arrival_time:` is true
iff the value is neither `None` nor the empty string. -/
def pyTruthyStr : Option String → Bool
  | none => false
  | some s => !s.isEmpty

/-- Lines 34-43: resolve the time constraint.  `utc_now_iso` stands for
`datetime.utcnow().isoformat()`; the code appends a trailing `"Z"` to it. -/
def resolve_time (departure_time arrival_time : Option String)
    (utc_now_iso : String) : String × String :=
  if pyTruthyStr arrival_time then ("arrivalTime", arrival_time.getD "")
  else if pyTruthyStr departure_time then ("departureTime", departure_time.getD "")
  else ("departureTime", utc_now_iso ++ "Z")

/-- A `{"error": msg}` dictionary, with no other keys. -/
def mkError (msg : String) : ResultDict :=
  { error := some msg, success := none, time_field := none,
    time_value := none, routes := none }

/-- Lines 24-90 of `commute.py`.  The request body built on lines 46-60 only
influences the provider's reply, which is abstracted by `outcome`; `origin`
and `destination` are kept to mirror the Python signature.

Exception dispatch: the `except requests.exceptions.RequestException` clause
on line 87 comes before the `except json.JSONDecodeError` clause on line 89,
and every `HttpOutcome` failure constructor — including `jsonDecodeError`,
since requests' `JSONDecodeError` subclasses `RequestException` — is caught
by that first clause, yielding `"API request failed: <cause>"`.  The
`"Invalid JSON response: <cause>"` handler on lines 89-90 is unreachable. -/
def compute_routes (_origin _destination : String)
    (departure_time arrival_time : Option String)
    (utc_now_iso : String) (outcome : HttpOutcome) : ResultDict :=
  let tv := resolve_time departure_time arrival_time utc_now_iso
  match outcome with
  | .transportError cause => mkError ("API request failed: " ++ cause)
  | .httpStatusError cause => mkError ("API request failed: " ++ cause)
  | .jsonDecodeError cause => mkError ("API request failed: " ++ cause)
  | .okResponse data =>
    match data.routes with
    | none => mkError "No routes found"
    | some rs =>
      if rs.isEmpty then mkError "No routes found"
      else { error := none, success := some true, time_field := some tv.1,
             time_value := some tv.2, routes := some rs }

/-! ## format_duration (lines 101-116) -/

/-- Python `int()` truncation toward zero, on a rational (Python float). -/
def pyInt (q : ℚ) : Int := if 0 ≤ q then ⌊q⌋ else -⌊-q⌋

/-- Lines 104-116, on the already-truncated total.  Python `//` is floor
division (`Int.fdiv`) and `%` with a positive divisor returns a value in
`[0, divisor)` (`Int.emod`). -/
def format_duration_total (total_seconds : Int) : String :=
  let hours := total_seconds.fdiv 3600
  let minutes := (total_seconds.emod 3600).fdiv 60
  let secs := total_seconds.emod 60
  let parts : List String :=
    (if 0 < hours then [toString hours ++ "h"] else []) ++
    (if 0 < minutes then [toString minutes ++ "m"] else [])
  let parts := parts ++ (if 0 < secs ∨ parts = [] then [toString secs ++ "s"] else [])
  String.intercalate " " parts

/-- Lines 101-116: `total_seconds = int(seconds)` (line 103), then the
decomposition above. -/
def format_duration (seconds : ℚ) : String :=
  format_duration_total (pyInt seconds)

/-- Modelled from the spec's duration-formatting rule, for comparison with
`format_duration`: decompose the whole-second total into hours, minutes and
remaining seconds by integer division, emit only the non-zero components in
order, and emit `"0s"` when all components are zero. -/
def format_duration_spec (total_seconds : Int) : String :=
  let hours := total_seconds.fdiv 3600
  let minutes := (total_seconds.emod 3600).fdiv 60
  let secs := total_seconds.emod 60
  if hours = 0 ∧ minutes = 0 ∧ secs = 0 then "0s"
  else
    String.intercalate " "
      ((if hours ≠ 0 then [toString hours ++ "h"] else []) ++
       (if minutes ≠ 0 then [toString minutes ++ "m"] else []) ++
       (if secs ≠ 0 then [toString secs ++ "s"] else []))

/-! ## calculate_departure_time (lines 92-99)

The function parses an RFC 3339 timestamp, subtracts the duration, converts
the instant to `ZoneInfo("America/New_York")` and renders it with
`strftime("%I:%M %p").lstrip("0")`.  `datetime.fromisoformat` and `ZoneInfo`
are standard-library collaborators: they are modelled below by an explicit
proleptic-Gregorian calendar (Howard Hinnant's `days_from_civil` /
`civil_from_days` algorithms) and the post-2007 United States DST rule that
the IANA `America/New_York` zone follows for the instants in scope. -/

/-- Hinnant's `days_from_civil`: days from 1970-01-01 to year `y`, month `m`
(1-12), day `d` (1-based) in the proleptic Gregorian calendar. -/
def days_from_civil (y : Int) (m d : Nat) : Int :=
  let y2 : Int := if m ≤ 2 then y - 1 else y
  let era := y2.fdiv 400
  let yoe := (y2 - era * 400).toNat
  let mp := if 3 ≤ m then m - 3 else m + 9
  let doy := (153 * mp + 2) / 5 + d - 1
  let doe := yoe * 365 + yoe / 4 + doy - yoe / 100
  era * 146097 + (doe : Int) - 719468

/-- Hinnant's `civil_from_days`: the (year, month, day) of the day `z` days
after 1970-01-01. -/
def civil_from_days (z : Int) : Int × Nat × Nat :=
  let z2 := z + 719468
  let era := z2.fdiv 146097
  let doe := (z2 - era * 146097).toNat
  let yoe := (doe - doe / 1460 + doe / 36524 - doe / 146096) / 365
  let y : Int := (yoe : Int) + era * 400
  let doy := doe - (365 * yoe + yoe / 4 - yoe / 100)
  let mp := (5 * doy + 2) / 153
  let d := doy - (153 * mp + 2) / 5 + 1
  let m := if mp < 10 then mp + 3 else mp - 9
  (if m ≤ 2 then y + 1 else y, m, d)

/-- Day of week of epoch day `z` with `0` = Sunday (1970-01-01 was a Thursday). -/
def weekday_of_days (z : Int) : Nat := ((z + 4).emod 7).toNat

/-- Epoch day of the `n`-th (1-based) Sunday of month `m` in year `y`. -/
def nth_sunday (y : Int) (m n : Nat) : Int :=
  let first := days_from_civil y m 1
  let w := weekday_of_days first
  first + ((7 - w) % 7 : Nat) + 7 * (n - 1)

/-- Modelled from the spec: the UTC offset, in seconds, of the reference time
zone `America/New_York` (Python `ZoneInfo`) at a UTC instant, under the
post-2007 United States DST regime: Eastern Daylight Time (UTC-4) from 2:00
EST on the second Sunday of March (07:00 UTC) until 2:00 EDT on the first
Sunday of November (06:00 UTC), Eastern Standard Time (UTC-5) otherwise.
The governing year is read off the UTC calendar date; near New Year the two
candidate years agree (DST is off in both). -/
def eastern_offset (epoch : Int) : Int :=
  let y := (civil_from_days (epoch.fdiv 86400)).1
  let dstStart := nth_sunday y 3 2 * 86400 + 7 * 3600
  let dstEnd := nth_sunday y 11 1 * 86400 + 6 * 3600
  if dstStart ≤ epoch ∧ epoch < dstEnd then (-4) * 3600 else (-5) * 3600

/-- The numeric value of a decimal digit. -/
def digitVal (c : Char) : Nat := c.toNat - 48

/-- Days in a month of the proleptic Gregorian calendar. -/
def days_in_month (y : Int) (m : Nat) : Nat :=
  if m = 2 then (if y.emod 4 = 0 ∧ (y.emod 100 ≠ 0 ∨ y.emod 400 = 0) then 29 else 28)
  else if m = 4 ∨ m = 6 ∨ m = 9 ∨ m = 11 then 30
  else 31

/-- Modelled from the spec (RFC 3339 timestamp parsing): the Unix epoch second
of a string of the exact shape `YYYY-MM-DDTHH:MM:SSZ`, `none` on any other
shape or on out-of-range fields.  This is the restriction, to the timestamps
the system exchanges, of `datetime.fromisoformat` applied after the
`replace('Z', '+00:00')` on line 95. -/
def parse_iso_z (s : String) : Option Int :=
  match s.toList with
  | [y1, y2, y3, y4, '-', m1, m2, '-', d1, d2, 'T',
     h1, h2, ':', n1, n2, ':', s1, s2, 'Z'] =>
    if ([y1, y2, y3, y4, m1, m2, d1, d2, h1, h2, n1, n2, s1, s2].all Char.isDigit) then
      let y : Int := (1000 * digitVal y1 + 100 * digitVal y2 + 10 * digitVal y3 + digitVal y4 : Nat)
      let mo := 10 * digitVal m1 + digitVal m2
      let d := 10 * digitVal d1 + digitVal d2
      let h := 10 * digitVal h1 + digitVal h2
      let mi := 10 * digitVal n1 + digitVal n2
      let se := 10 * digitVal s1 + digitVal s2
      if 1 ≤ mo ∧ mo ≤ 12 ∧ 1 ≤ d ∧ d ≤ days_in_month y mo ∧ h < 24 ∧ mi < 60 ∧ se < 60 then
        some (days_from_civil y mo d * 86400 + (h * 3600 + mi * 60 + se : Nat))
      else none
    else none
  | _ => none

/-- Zero-padded two-digit rendering, as `strftime` uses for `%I` and `%M`. -/
def pad2 (n : Nat) : String := if n < 10 then "0" ++ toString n else toString n

/-- Python `s.lstrip("0")`: remove every leading `'0'` character. -/
def lstrip0 (s : String) : String := ⟨s.data.dropWhile (fun c => c = '0')⟩

/-- Python `s[:n]`: the first `n` characters (code points) of `s`. -/
def takeChars (s : String) (n : Nat) : String := ⟨s.data.take n⟩

/-- Lines 92-99 of `commute.py`, at the default reference time zone
`"America/New_York"`.  `none` models the `ValueError` Python raises when the
timestamp does not parse.  `strftime("%I:%M %p")` renders the 12-hour clock
time zero-padded, and `lstrip("0")` then removes the leading zeros. -/
def calculate_departure_time (arrival_time_iso : String)
    (duration_seconds : ℚ) : Option String :=
  match parse_iso_z arrival_time_iso with
  | none => none
  | some arrival =>
    -- `departure = arrival - timedelta(seconds=duration)`, line 96.  The civil
    -- fields `strftime` reads are those of the floored epoch second
    -- `⌊arrival - duration⌋`, which for an integer `arrival` is `arrival - ⌈duration⌉`.
    let departure_utc : Int := arrival - ⌈duration_seconds⌉
    let t := departure_utc + eastern_offset departure_utc
    let sod := (t.emod 86400).toNat
    let hour := sod / 3600
    let minute := (sod % 3600) / 60
    let h12 := if hour % 12 = 0 then 12 else hour % 12
    let ampm := if hour < 12 then "AM" else "PM"
    some (lstrip0 (pad2 h12 ++ ":" ++ pad2 minute ++ " " ++ ampm))

/-! ## format_route_output (lines 118-187) -/

/-- The numeric value of a digit string, most significant digit first. -/
def digitsToNat (cs : List Char) : Nat :=
  cs.foldl (fun a c => 10 * a + digitVal c) 0

/-- Modelled from the spec (the provider's `duration` is a decimal number of
seconds suffixed `"s"`): Python `float()` on a plain decimal numeral — an
optional sign, an integer part, an optional fractional part, at least one
digit in total.  Other forms `float()` accepts (exponents, `inf`, `nan`,
underscores, surrounding whitespace) are outside the model and yield `none`,
as does everything that makes `float()` raise `ValueError`. -/
def pyFloat (s : String) : Option ℚ :=
  let cs := s.data
  let signed : Bool × List Char :=
    match cs with
    | '-' :: r => (true, r)
    | '+' :: r => (false, r)
    | _ => (false, cs)
  let ip := signed.2.takeWhile Char.isDigit
  let rest := signed.2.dropWhile Char.isDigit
  let mag : Option ℚ :=
    match rest with
    | [] => if ip.isEmpty then none else some ((digitsToNat ip : ℚ))
    | '.' :: fp =>
      if fp.all Char.isDigit ∧ ¬(ip.isEmpty ∧ fp.isEmpty) then
        some ((digitsToNat ip : ℚ) + (digitsToNat fp : ℚ) / ((10 : ℚ) ^ fp.length))
      else none
    | _ => none
  mag.map (fun v => if signed.1 then -v else v)

/-- Line 146: `duration_str[:].replace("s", "")`.  Replacing every occurrence
of the one-character pattern `"s"` by the empty string removes every `'s'`. -/
def strip_s_suffix (s : String) : String := ⟨s.data.filter (fun c => c ≠ 's')⟩

/-- Lines 145-146: read `route["duration"]` (a `KeyError`, hence `none`, when
the key is absent) and parse it as a float after stripping `"s"` (`none` when
`float()` raises). -/
def route_duration_seconds (r : Route) : Option ℚ :=
  match r.duration with
  | none => none
  | some dstr => pyFloat (strip_s_suffix dstr)

/-- Lines 140-142: `{m/1000:.1f}`, the kilometre figure to one decimal place.
The decimal value `m/1000` is rounded to one decimal digit, ties to even, as
`%.1f` does; the double nearest `m/1000` can sit on the other side of a tie,
which no claim exercises. -/
def format_km_1dp (m : Nat) : String :=
  let q := m / 100
  let r := m % 100
  let k := if 50 < r then q + 1 else if r < 50 then q else if q % 2 = 0 then q else q + 1
  toString (k / 10) ++ "." ++ toString (k % 10)

/-- Lines 156-158: the route-summary line, when the summary is non-empty. -/
def summary_lines (r : Route) : List String :=
  let summary := r.summary.getD ""
  if summary = "" then [] else ["  Route: " ++ summary]

/-- Lines 160-164: the polyline line, when the encoded polyline is non-empty.
The f-string appends `"..."` after the first 60 characters unconditionally. -/
def polyline_lines (r : Route) : List String :=
  let encoded := ((r.polyline.getD ⟨none⟩).encodedPolyline).getD ""
  if encoded = "" then []
  else ["  Polyline (encoded): " ++ (takeChars encoded 60 ++ "...")]

/-- Lines 177-181: one step of the loop body.  The numbered line is emitted
only when the instruction text is non-empty (`if instruction:`); the maneuver
defaults to `"STRAIGHT"`. -/
def step_line (step_idx : Nat) (step : Step) : List String :=
  let nav := step.navigationInstruction.getD ⟨none, none⟩
  let instruction := nav.instructions.getD ""
  let maneuver := nav.maneuver.getD "STRAIGHT"
  if instruction = "" then []
  else ["      " ++ (toString step_idx ++ ". " ++ maneuver ++ ": " ++ takeChars instruction 60)]

/-- Line 176: `enumerate(steps[:3], 1)`, unrolled as a recursion on the list
with a 1-based counter. -/
def render_steps : Nat → List Step → List String
  | _, [] => []
  | idx, s :: rest => step_line idx s ++ render_steps (idx + 1) rest

/-- Lines 172-183: the step block of one leg. -/
def step_lines (leg : Leg) : List String :=
  let steps := leg.steps.getD []
  if steps.isEmpty then []
  else
    "    Directions (first 3 steps):" :: render_steps 1 (steps.take 3) ++
      (if 3 < steps.length then
        ["      ... and " ++ (toString (steps.length - 3) ++ " more steps")]
      else [])

/-- Lines 169-183: `enumerate(legs, 1)`; a leg header, then the leg's steps. -/
def render_legs : Nat → List Leg → List String
  | _, [] => []
  | j, leg :: rest =>
    ("  Leg " ++ (toString j ++ ":")) :: step_lines leg ++ render_legs (j + 1) rest

/-- Lines 136-185: the output lines of one candidate route.  `none` models an
exception escaping the loop body (`KeyError` on a missing `duration`,
`ValueError` from `float()` or from the timestamp parse on line 95). -/
def route_lines (time_field time_value : String) (i : Nat) (r : Route) :
    Option (List String) :=
  let distance_m := r.distanceMeters.getD 0
  match route_duration_seconds r with
  | none => none
  | some duration_sec =>
    let dls? : Option (List String) :=
      if time_field = "arrivalTime" then
        (calculate_departure_time time_value duration_sec).map
          (fun departure => ["  Latest Departure (to arrive on time): " ++ departure])
      else some []
    match dls? with
    | none => none
    | some dls =>
      some (["Route " ++ (toString i ++ ":"),
             "  Distance: " ++ (format_km_1dp distance_m ++ " km (" ++ toString distance_m ++ "m)"),
             "  Duration (PESSIMISTIC, Typical Worst Case): " ++ format_duration duration_sec]
            ++ dls ++ summary_lines r ++ polyline_lines r
            ++ render_legs 1 (r.legs.getD []))

/-- Lines 136-185: `enumerate(routes, 1)`, each route's lines followed by the
blank separator line appended at line 185. -/
def render_routes (time_field time_value : String) : Nat → List Route → Option (List String)
  | _, [] => some []
  | i, r :: rest =>
    match route_lines time_field time_value i r with
    | none => none
    | some b =>
      match render_routes time_field time_value (i + 1) rest with
      | none => none
      | some bs => some (b ++ [""] ++ bs)

/-- Lines 127-187 for a result that passed the two early returns: the full
list of output lines that `"\n".join` receives. -/
def ok_output_lines (result : ResultDict) : Option (List String) :=
  let routes := result.routes.getD []
  let time_field := result.time_field.getD "departureTime"
  let time_value := result.time_value.getD ""
  (render_routes time_field time_value 1 routes).map
    (fun blocks =>
      ["📍 Routes (" ++ (toString routes.length ++ " found) - PESSIMISTIC traffic model"),
       "   Reference: " ++ (time_field ++ " = " ++ time_value), ""] ++ blocks)

/-- Lines 118-187 of `commute.py`.  `none` models an uncaught exception. -/
def format_route_output (result : ResultDict) : Option String :=
  match result.error with
  | some msg => some ("❌ Error: " ++ msg)
  | none =>
    if result.success = some true then
      (ok_output_lines result).map (String.intercalate "\n")
    else some "❌ Failed to compute routes"

/-! ## Witness fixtures: concrete inputs used by the closed witness and
counterexample theorems below. -/

/-- A route dictionary with every key absent. -/
def emptyRoute : Route :=
  { distanceMeters := none, duration := none, summary := none,
    polyline := none, legs := none }

/-- A route with only a duration. -/
def durOnlyRoute : Route :=
  { distanceMeters := none, duration := some "1800s", summary := none,
    polyline := none, legs := none }

/-- A route whose encoded polyline has 3 characters, well under 60. -/
def shortPolyRoute : Route :=
  { distanceMeters := none, duration := some "0s", summary := none,
    polyline := some ⟨some "abc"⟩, legs := none }

/-- A navigation step with the given instruction text and no maneuver. -/
def mkStep (instr : String) : Step := ⟨some ⟨some instr, none⟩⟩

/-- A leg with five steps, all with non-empty instructions. -/
def fiveStepLeg : Leg :=
  ⟨some [mkStep "a", mkStep "b", mkStep "c", mkStep "d", mkStep "e"]⟩

/-- A leg with a single step whose navigation instruction is an empty dict,
so its instruction text defaults to the empty string. -/
def emptyInstrLeg : Leg := ⟨some [⟨some ⟨none, none⟩⟩]⟩

/-! ## Claim theorems -/

theorem isEmpty_false_of_ne {s : String} (h : s ≠ "") : s.isEmpty = false := by
  cases hi : s.isEmpty
  · rfl
  · exact absurd ((String.isEmpty_iff s).mp hi) h

theorem empty_isEmpty : ("" : String).isEmpty = true := rfl

/-- C1: the time constraint is resolved with arrival taking priority: a
supplied (non-empty, as RFC 3339 timestamps are) `arrival_time` fixes
`time_field = "arrivalTime"` and `time_value = arrival_time` even when
`departure_time` is also supplied; otherwise a supplied `departure_time`
fixes `time_field = "departureTime"` with its value; otherwise the current
UTC instant with a trailing `"Z"` is used as the departure time.  The result
of a successful call carries exactly the resolved pair. -/
theorem c1_time_resolution (origin destination : String)
    (dep arr : Option String) (now : String) (data : ProviderData)
    (rs : List Route) (hroutes : data.routes = some rs) (hne : rs ≠ []) :
    (∀ a, arr = some a → a ≠ "" →
      (compute_routes origin destination dep arr now (.okResponse data)).time_field
          = some "arrivalTime" ∧
      (compute_routes origin destination dep arr now (.okResponse data)).time_value
          = some a) ∧
    ((arr = none ∨ arr = some "") → ∀ d, dep = some d → d ≠ "" →
      (compute_routes origin destination dep arr now (.okResponse data)).time_field
          = some "departureTime" ∧
      (compute_routes origin destination dep arr now (.okResponse data)).time_value
          = some d) ∧
    ((arr = none ∨ arr = some "") → (dep = none ∨ dep = some "") →
      (compute_routes origin destination dep arr now (.okResponse data)).time_field
          = some "departureTime" ∧
      (compute_routes origin destination dep arr now (.okResponse data)).time_value
          = some (now ++ "Z")) := by
  have hse : rs.isEmpty = false := by
    cases rs with
    | nil => exact absurd rfl hne
    | cons a l => rfl
  refine ⟨?_, ?_, ?_⟩
  · intro a ha hne'
    subst ha
    simp [compute_routes, hroutes, hse, resolve_time, pyTruthyStr,
      isEmpty_false_of_ne hne']
  · rintro (rfl | rfl) d hd hne' <;> subst hd <;>
      simp [compute_routes, hroutes, hse, resolve_time, pyTruthyStr,
        isEmpty_false_of_ne hne', empty_isEmpty]
  · rintro (rfl | rfl) (rfl | rfl) <;>
      simp [compute_routes, hroutes, hse, resolve_time, pyTruthyStr, empty_isEmpty]

/-- Witness for `c1_time_resolution`: both times supplied, arrival wins. -/
theorem c1_witness :
    (compute_routes "o" "d" (some "2026-01-28T08:00:00Z") (some "2026-01-28T14:00:00Z")
        "now" (.okResponse ⟨some [emptyRoute]⟩)).time_field
      = some "arrivalTime" ∧
    (compute_routes "o" "d" (some "2026-01-28T08:00:00Z") (some "2026-01-28T14:00:00Z")
        "now" (.okResponse ⟨some [emptyRoute]⟩)).time_value
      = some "2026-01-28T14:00:00Z" :=
  (c1_time_resolution "o" "d" (some "2026-01-28T08:00:00Z")
      (some "2026-01-28T14:00:00Z") "now" _ _ rfl (by decide)).1
    "2026-01-28T14:00:00Z" rfl (by decide)

/-- C2: a valid JSON body with no `routes` key or an empty `routes` list
yields exactly `{"error": "No routes found"}`, and a success result always
carries a routes list of length at least 1. -/
theorem c2_no_routes (origin destination : String) (dep arr : Option String)
    (now : String) :
    (∀ data : ProviderData, data.routes = none ∨ data.routes = some [] →
      compute_routes origin destination dep arr now (.okResponse data)
        = mkError "No routes found") ∧
    (∀ outcome : HttpOutcome,
      (compute_routes origin destination dep arr now outcome).success = some true →
      ∃ rs, (compute_routes origin destination dep arr now outcome).routes = some rs ∧
        1 ≤ rs.length) := by
  constructor
  · rintro ⟨routes?⟩ (h | h) <;> (cases h; simp [compute_routes])
  · intro outcome hsucc
    cases outcome with
    | transportError c => simp [compute_routes, mkError] at hsucc
    | httpStatusError c => simp [compute_routes, mkError] at hsucc
    | jsonDecodeError c => simp [compute_routes, mkError] at hsucc
    | okResponse data =>
      cases hr : data.routes with
      | none => simp [compute_routes, hr, mkError] at hsucc
      | some rs =>
        cases rs with
        | nil => simp [compute_routes, hr, mkError] at hsucc
        | cons a l =>
          refine ⟨a :: l, ?_, by simp⟩
          simp [compute_routes, hr]

/-- Witness for `c2_no_routes`: an empty routes list is normalized to the
error dictionary. -/
theorem c2_witness :
    compute_routes "o" "d" none none "now" (.okResponse ⟨some []⟩)
      = mkError "No routes found" :=
  (c2_no_routes "o" "d" none none "now").1 ⟨some []⟩ (Or.inr rfl)

theorem format_duration_total_eq_spec (t : Int) (ht : 0 ≤ t) :
    format_duration_total t = format_duration_spec t := by
  have hs0 : 0 ≤ t.emod 60 := Int.emod_nonneg t (by norm_num)
  have hh0 : 0 ≤ t.fdiv 3600 := Int.fdiv_nonneg ht (by norm_num)
  have hm0 : 0 ≤ (t.emod 3600).fdiv 60 :=
    Int.fdiv_nonneg (Int.emod_nonneg t (by norm_num)) (by norm_num)
  have e1 : (0 < t.fdiv 3600) ↔ ¬(t.fdiv 3600 = 0) := by omega
  have e2 : (0 < (t.emod 3600).fdiv 60) ↔ ¬((t.emod 3600).fdiv 60 = 0) := by omega
  have e3 : (0 < t.emod 60) ↔ ¬(t.emod 60 = 0) := by omega
  unfold format_duration_total format_duration_spec
  simp only [e1, e2, e3]
  by_cases h1 : t.fdiv 3600 = 0 <;> by_cases h2 : (t.emod 3600).fdiv 60 = 0 <;>
      by_cases h3 : t.emod 60 = 0 <;>
    simp [h1, h2, h3] <;> decide

/-- C3: `format_duration`, on a non-negative duration in seconds, truncates
to whole seconds and renders exactly as the spec's rule (non-zero components
only, `"0s"` when all are zero): it coincides with the spec-modelled
`format_duration_spec` on the truncated total, and reproduces the four
documented examples. -/
theorem c3_format_duration :
    (∀ q : ℚ, 0 ≤ q → format_duration q = format_duration_spec ⌊q⌋) ∧
    format_duration 0 = "0s" ∧ format_duration 65 = "1m 5s" ∧
    format_duration 3661 = "1h 1m 1s" ∧ format_duration 3600 = "1h" := by
  refine ⟨?_, by decide, by decide, by decide, by decide⟩
  intro q hq
  unfold format_duration
  rw [show pyInt q = ⌊q⌋ from if_pos hq]
  exact format_duration_total_eq_spec _ (Int.floor_nonneg.mpr hq)

/-- Witness for `c3_format_duration`: the general part at `q = 65`. -/
theorem c3_witness : format_duration 65 = format_duration_spec ⌊(65 : ℚ)⌋ :=
  c3_format_duration.1 65 (by norm_num)

/-! Helper lemmas for the formatter claims: two output lines whose leading
literals differ at a common character index are distinct strings, and every
line of the leg/step blocks starts with a known literal. -/

theorem append_clash {p q t u : String} (h : p ++ t = q ++ u) (k : Nat)
    (a b : Char) (h1 : p.data.get? k = some a) (h2 : q.data.get? k = some b)
    (hne : a ≠ b) : False := by
  apply hne
  have hk1 : k < p.data.length := by
    rcases List.get?_eq_some.mp h1 with ⟨hl, _⟩; exact hl
  have hk2 : k < q.data.length := by
    rcases List.get?_eq_some.mp h2 with ⟨hl, _⟩; exact hl
  have e : p.data ++ t.data = q.data ++ u.data := by
    have hd := congrArg String.data h
    rwa [String.data_append, String.data_append] at hd
  have e1 : (p.data ++ t.data).get? k = some a := by
    rw [List.get?_append hk1]; exact h1
  have e2 : (q.data ++ u.data).get? k = some b := by
    rw [List.get?_append hk2]; exact h2
  rw [e] at e1
  exact Option.some.inj (e1.symm.trans e2)

theorem append_clash_lit {p q t : String} (h : p ++ t = q) (k : Nat)
    (a b : Char) (h1 : p.data.get? k = some a) (h2 : q.data.get? k = some b)
    (hne : a ≠ b) : False := by
  apply hne
  have hk1 : k < p.data.length := by
    rcases List.get?_eq_some.mp h1 with ⟨hl, _⟩; exact hl
  have e : p.data ++ t.data = q.data := by
    have hd := congrArg String.data h
    rwa [String.data_append] at hd
  have e1 : (p.data ++ t.data).get? k = some a := by
    rw [List.get?_append hk1]; exact h1
  rw [e] at e1
  exact Option.some.inj (e1.symm.trans h2)

theorem mem_render_steps_shape {x : String} :
    ∀ (idx : Nat) (steps : List Step), x ∈ render_steps idx steps →
      ∃ s, x = "      " ++ s := by
  intro idx steps
  induction steps generalizing idx with
  | nil => intro hx; simp [render_steps] at hx
  | cons st rest ih =>
    intro hx
    rw [render_steps] at hx
    rcases List.mem_append.mp hx with hx | hx
    · by_cases hi : (st.navigationInstruction.getD ⟨none, none⟩).instructions.getD "" = ""
      · simp [step_line, hi] at hx
      · simp [step_line, hi] at hx
        exact ⟨_, hx⟩
    · exact ih _ hx

theorem mem_step_lines_shape {x : String} {leg : Leg} (hx : x ∈ step_lines leg) :
    x = "    Directions (first 3 steps):" ∨ ∃ s, x = "      " ++ s := by
  unfold step_lines at hx
  by_cases he : (leg.steps.getD []).isEmpty
  · rw [if_pos he] at hx; cases hx
  · rw [if_neg he] at hx
    rcases List.mem_cons.mp hx with hx | hx
    · exact Or.inl hx
    rcases List.mem_append.mp hx with hx | hx
    · exact Or.inr (mem_render_steps_shape _ _ hx)
    · by_cases hl : 3 < (leg.steps.getD []).length
      · rw [if_pos hl] at hx
        have hx' := List.mem_singleton.mp hx
        refine Or.inr ⟨"... and " ++ (toString ((leg.steps.getD []).length - 3) ++ " more steps"), ?_⟩
        rw [hx', show ("      ... and " : String) = "      " ++ "... and " from rfl,
          String.append_assoc]
      · rw [if_neg hl] at hx; cases hx

theorem mem_render_legs_shape {x : String} :
    ∀ (j : Nat) (legs : List Leg), x ∈ render_legs j legs →
      (∃ s, x = "  Leg " ++ s) ∨ x = "    Directions (first 3 steps):" ∨
        ∃ s, x = "      " ++ s := by
  intro j legs
  induction legs generalizing j with
  | nil => intro hx; simp [render_legs] at hx
  | cons leg rest ih =>
    intro hx
    rw [render_legs] at hx
    rcases List.mem_cons.mp hx with hx | hx
    · exact Or.inl ⟨toString j ++ ":", hx⟩
    rcases List.mem_append.mp hx with hx | hx
    · exact Or.inr (mem_step_lines_shape hx)
    · exact ih _ hx

/-- The latest-departure line cannot occur among the summary, polyline, leg
and step lines of a candidate block. -/
theorem latest_not_mem_tail (r : Route) (dep : String) :
    ("  Latest Departure (to arrive on time): " ++ dep) ∉
      summary_lines r ++ (polyline_lines r ++ render_legs 1 (r.legs.getD [])) := by
  intro hx
  rcases List.mem_append.mp hx with hx | hx
  · unfold summary_lines at hx
    by_cases hs : r.summary.getD "" = ""
    · rw [if_pos hs] at hx; cases hx
    · rw [if_neg hs] at hx
      exact append_clash (List.mem_singleton.mp hx) 2 'L' 'R' rfl rfl (by decide)
  rcases List.mem_append.mp hx with hx | hx
  · unfold polyline_lines at hx
    by_cases hp : ((r.polyline.getD ⟨none⟩).encodedPolyline).getD "" = ""
    · rw [if_pos hp] at hx; cases hx
    · rw [if_neg hp] at hx
      exact append_clash (List.mem_singleton.mp hx) 2 'L' 'P' rfl rfl (by decide)
  · rcases mem_render_legs_shape _ _ hx with ⟨s, hs⟩ | hs | ⟨s, hs⟩
    · exact append_clash hs 3 'a' 'e' rfl rfl (by decide)
    · exact append_clash_lit hs 2 'L' ' ' rfl rfl (by decide)
    · exact append_clash hs 2 'L' ' ' rfl rfl (by decide)

/-- The latest-departure line cannot be one of the three fixed leading lines
of a candidate block. -/
theorem latest_not_mem_head (i : Nat) (m : Nat) (q : ℚ) (dep : String) :
    ("  Latest Departure (to arrive on time): " ++ dep) ∉
      ["Route " ++ (toString i ++ ":"),
       "  Distance: " ++ (format_km_1dp m ++ " km (" ++ toString m ++ "m)"),
       "  Duration (PESSIMISTIC, Typical Worst Case): " ++ format_duration q] := by
  intro hx
  rcases List.mem_cons.mp hx with hx | hx
  · exact append_clash hx 0 ' ' 'R' rfl rfl (by decide)
  rcases List.mem_cons.mp hx with hx | hx
  · exact append_clash hx 2 'L' 'D' rfl rfl (by decide)
  rcases List.mem_cons.mp hx with hx | hx
  · exact append_clash hx 2 'L' 'D' rfl rfl (by decide)
  · cases hx

theorem str_append_left_cancel {p a b : String} (h : p ++ a = p ++ b) : a = b := by
  have hd := congrArg String.data h
  rw [String.data_append, String.data_append] at hd
  exact String.ext (List.append_cancel_left hd)

/-- C4: a candidate's output block contains a latest-departure line exactly
when the query's `time_field` is `"arrivalTime"`; any such line carries
`calculate_departure_time time_value duration` — the arrival timestamp minus
the candidate's duration, converted to `America/New_York` and rendered as a
12-hour clock time without a leading zero; and on the documented example
(arrival `2026-01-28T14:00:00Z`, duration 1800 s, i.e. 13:30 UTC) that
rendering is `"8:30 AM"`, Eastern civil time. -/
theorem c4_latest_departure (tf tv : String) (i : Nat) (r : Route)
    (ls : List String) (h : route_lines tf tv i r = some ls) :
    ((∃ dep, ("  Latest Departure (to arrive on time): " ++ dep) ∈ ls) ↔
      tf = "arrivalTime") ∧
    (∀ dep, ("  Latest Departure (to arrive on time): " ++ dep) ∈ ls →
      ∃ q, route_duration_seconds r = some q ∧
        calculate_departure_time tv q = some dep) ∧
    calculate_departure_time "2026-01-28T14:00:00Z" 1800 = some "8:30 AM" := by
  refine ⟨?_, ?_, by decide⟩ <;>
  · cases hq : route_duration_seconds r with
    | none => simp [route_lines, hq] at h
    | some q =>
      simp only [route_lines, hq] at h
      by_cases htf : tf = "arrivalTime"
      · rw [if_pos htf] at h
        cases hc : calculate_departure_time tv q with
        | none => rw [hc] at h; simp at h
        | some dep0 =>
          rw [hc] at h
          simp only [Option.map_some'] at h
          have hls := Option.some.inj h
          subst hls
          first
          | -- the iff goal
            (constructor
             · intro _; exact htf
             · intro _; exact ⟨dep0, by simp⟩)
          | -- the value goal
            (intro dep hdep
             simp only [List.append_assoc] at hdep
             rcases List.mem_append.mp hdep with hx | hx
             · exact absurd hx (latest_not_mem_head i _ q dep)
             rcases List.mem_append.mp hx with hx | hx
             · have hd := List.mem_singleton.mp hx
               have : dep = dep0 := str_append_left_cancel hd
               exact ⟨q, rfl, by rw [this]; exact hc⟩
             · exact absurd hx (latest_not_mem_tail r dep))
      · rw [if_neg htf] at h
        have hls := Option.some.inj h
        subst hls
        first
        | (constructor
           · intro hex
             rcases hex with ⟨dep, hdep⟩
             exfalso
             simp only [List.append_assoc, List.nil_append] at hdep
             rcases List.mem_append.mp hdep with hx | hx
             · exact latest_not_mem_head i _ q dep hx
             · exact latest_not_mem_tail r dep hx
           · intro hco; exact absurd hco htf)
        | (intro dep hdep
           exfalso
           simp only [List.append_assoc, List.nil_append] at hdep
           rcases List.mem_append.mp hdep with hx | hx
           · exact latest_not_mem_head i _ q dep hx
           · exact latest_not_mem_tail r dep hx)

/-- Witness for `c4_latest_departure`: an arrival-time query with a
30-minute candidate. -/
theorem c4_witness :
    calculate_departure_time "2026-01-28T14:00:00Z" 1800 = some "8:30 AM" :=
  (c4_latest_departure "arrivalTime" "2026-01-28T14:00:00Z" 1 durOnlyRoute
    ["Route 1:", "  Distance: 0.0 km (0m)",
     "  Duration (PESSIMISTIC, Typical Worst Case): 30m",
     "  Latest Departure (to arrive on time): 8:30 AM"] (by decide)).2.2

/-- Structure of a successfully rendered candidate block: a parsed duration,
the three fixed leading lines, then the (possibly empty) latest-departure
block, the summary, polyline and leg lines. -/
theorem route_lines_eq_some {tf tv : String} {i : Nat} {r : Route}
    {ls : List String} (h : route_lines tf tv i r = some ls) :
    ∃ q dls, route_duration_seconds r = some q ∧
      (tf = "arrivalTime" → ∃ dep, calculate_departure_time tv q = some dep ∧
        dls = ["  Latest Departure (to arrive on time): " ++ dep]) ∧
      (tf ≠ "arrivalTime" → dls = []) ∧
      ls = ["Route " ++ (toString i ++ ":"),
            "  Distance: " ++ (format_km_1dp (r.distanceMeters.getD 0) ++ " km ("
              ++ toString (r.distanceMeters.getD 0) ++ "m)"),
            "  Duration (PESSIMISTIC, Typical Worst Case): " ++ format_duration q]
           ++ dls ++ summary_lines r ++ polyline_lines r
           ++ render_legs 1 (r.legs.getD []) := by
  cases hq : route_duration_seconds r with
  | none => simp [route_lines, hq] at h
  | some q =>
    simp only [route_lines, hq] at h
    by_cases htf : tf = "arrivalTime"
    · rw [if_pos htf] at h
      cases hc : calculate_departure_time tv q with
      | none => rw [hc] at h; simp at h
      | some dep =>
        rw [hc] at h
        simp only [Option.map_some'] at h
        exact ⟨q, ["  Latest Departure (to arrive on time): " ++ dep], rfl,
          fun _ => ⟨dep, hc, rfl⟩, fun hcon => absurd htf hcon,
          (Option.some.inj h).symm⟩
    · rw [if_neg htf] at h
      exact ⟨q, [], rfl, fun hcon => absurd hcon htf, fun _ => rfl,
        (Option.some.inj h).symm⟩

/-- Counterexample to C5 as stated: the 3-character polyline `"abc"` is at or
under 60 characters, yet the rendered block carries the line with the ellipsis
marker and not the claimed ellipsis-free line `"  Polyline (encoded): abc"`. -/
theorem c5_counterexample :
    route_lines "departureTime" "" 1 shortPolyRoute
        = some ["Route 1:", "  Distance: 0.0 km (0m)",
                "  Duration (PESSIMISTIC, Typical Worst Case): 0s",
                "  Polyline (encoded): abc..."] ∧
    "  Polyline (encoded): abc" ∉
      ["Route 1:", "  Distance: 0.0 km (0m)",
       "  Duration (PESSIMISTIC, Typical Worst Case): 0s",
       "  Polyline (encoded): abc..."] := by decide

/-- C5 amended: for every candidate with a non-empty encoded polyline the
block displays the first 60 characters of the polyline followed by the
ellipsis marker — also when the polyline is at or under 60 characters, in
which case the full string is shown, still followed by the marker — and when
the polyline is empty no polyline line is emitted. -/
theorem c5_polyline_display (tf tv : String) (i : Nat) (r : Route)
    (ls : List String) (h : route_lines tf tv i r = some ls) :
    (((r.polyline.getD ⟨none⟩).encodedPolyline).getD "" ≠ "" →
      ("  Polyline (encoded): " ++
        (takeChars (((r.polyline.getD ⟨none⟩).encodedPolyline).getD "") 60 ++ "..."))
        ∈ ls) ∧
    (((r.polyline.getD ⟨none⟩).encodedPolyline).getD "" = "" →
      ∀ s, ("  Polyline (encoded): " ++ s) ∉ ls) := by
  rcases route_lines_eq_some h with ⟨q, dls, hq, hdls1, hdls2, hls⟩
  subst hls
  constructor
  · intro henc
    have hpoly : polyline_lines r =
        ["  Polyline (encoded): " ++
          (takeChars (((r.polyline.getD ⟨none⟩).encodedPolyline).getD "") 60 ++ "...")] := by
      unfold polyline_lines
      rw [if_neg henc]
    apply List.mem_append_left
    apply List.mem_append_right
    rw [hpoly]
    simp
  · intro henc s hx
    have hpoly : polyline_lines r = [] := by
      unfold polyline_lines
      rw [if_pos henc]
    rw [hpoly] at hx
    simp only [List.append_nil, List.append_assoc, List.nil_append] at hx
    rcases List.mem_append.mp hx with hx | hx
    · rcases List.mem_cons.mp hx with hx | hx
      · exact append_clash hx 0 ' ' 'R' rfl rfl (by decide)
      rcases List.mem_cons.mp hx with hx | hx
      · exact append_clash hx 2 'P' 'D' rfl rfl (by decide)
      rcases List.mem_cons.mp hx with hx | hx
      · exact append_clash hx 2 'P' 'D' rfl rfl (by decide)
      · cases hx
    rcases List.mem_append.mp hx with hx | hx
    · by_cases htf : tf = "arrivalTime"
      · rcases hdls1 htf with ⟨dep, _, hdlseq⟩
        rw [hdlseq] at hx
        exact append_clash (List.mem_singleton.mp hx) 2 'P' 'L' rfl rfl (by decide)
      · rw [hdls2 htf] at hx; cases hx
    rcases List.mem_append.mp hx with hx | hx
    · unfold summary_lines at hx
      by_cases hsum : r.summary.getD "" = ""
      · rw [if_pos hsum] at hx; cases hx
      · rw [if_neg hsum] at hx
        exact append_clash (List.mem_singleton.mp hx) 2 'P' 'R' rfl rfl (by decide)
    · rcases mem_render_legs_shape _ _ hx with ⟨s2, hs⟩ | hs | ⟨s2, hs⟩
      · exact append_clash hs 2 'P' 'L' rfl rfl (by decide)
      · exact append_clash_lit hs 2 'P' ' ' rfl rfl (by decide)
      · exact append_clash hs 2 'P' ' ' rfl rfl (by decide)

/-- Witness for `c5_polyline_display`: the short polyline route. -/
theorem c5_witness :
    ("  Polyline (encoded): " ++
      (takeChars (((shortPolyRoute.polyline.getD ⟨none⟩).encodedPolyline).getD "") 60
        ++ "...")) ∈
      ["Route 1:", "  Distance: 0.0 km (0m)",
       "  Duration (PESSIMISTIC, Typical Worst Case): 0s",
       "  Polyline (encoded): abc..."] :=
  (c5_polyline_display "departureTime" "" 1 shortPolyRoute _ (by decide)).1 (by decide)

/-- Membership in the rendered step list: exactly the lines of `step_line`
applied at each position, with the 1-based counter `enumerate` provides. -/
theorem mem_render_steps_iff {x : String} :
    ∀ (idx : Nat) (steps : List Step),
      x ∈ render_steps idx steps ↔
        ∃ j s, steps.get? j = some s ∧ x ∈ step_line (idx + j) s := by
  intro idx steps
  induction steps generalizing idx with
  | nil => simp [render_steps]
  | cons st rest ih =>
    rw [render_steps]
    simp only [List.mem_append]
    constructor
    · rintro (hx | hx)
      · exact ⟨0, st, rfl, by simpa using hx⟩
      · rcases (ih (idx + 1)).mp hx with ⟨j, s, hj, hxs⟩
        refine ⟨j + 1, s, by simpa using hj, ?_⟩
        rw [show idx + (j + 1) = idx + 1 + j by omega]
        exact hxs
    · rintro ⟨j, s, hj, hxs⟩
      cases j with
      | zero =>
        left
        have hst : st = s := Option.some.inj hj
        rw [← hst] at hxs
        simpa using hxs
      | succ j =>
        right
        apply (ih (idx + 1)).mpr
        refine ⟨j, s, by simpa using hj, ?_⟩
        rw [show idx + 1 + j = idx + (j + 1) by omega]
        exact hxs

/-- Counterexample to C6 as stated: a leg with one step whose navigation
instruction is empty (the provider omitted the text).  The claim's rendering
`"      1. STRAIGHT: "` (index, default maneuver, first 60 characters of the
empty instruction) is not emitted: steps with empty instruction text are
skipped. -/
theorem c6_counterexample :
    step_lines emptyInstrLeg = ["    Directions (first 3 steps):"] ∧
    "      1. STRAIGHT: " ∉ step_lines emptyInstrLeg := by decide

/-- C6 amended: a leg's block renders, among the first 3 steps only, exactly
those whose instruction text is non-empty, each as
`"<index>. <maneuver>: <first 60 chars>"` with the maneuver defaulting to
`"STRAIGHT"`, and appends the remaining-step count when more than 3 steps
exist; in particular a leg with 5 steps, all with non-empty instructions,
renders exactly 3 numbered lines followed by `"... and 2 more steps"`. -/
theorem c6_step_truncation (leg : Leg) :
    (∀ x ∈ step_lines leg,
      x = "    Directions (first 3 steps):" ∨
      (∃ j s, j < 3 ∧ (leg.steps.getD []).get? j = some s ∧ x ∈ step_line (j + 1) s) ∨
      (3 < (leg.steps.getD []).length ∧
        x = "      ... and " ++ (toString ((leg.steps.getD []).length - 3) ++ " more steps"))) ∧
    (∀ j s, j < 3 → (leg.steps.getD []).get? j = some s →
      ∀ x ∈ step_line (j + 1) s, x ∈ step_lines leg) ∧
    (3 < (leg.steps.getD []).length →
      ("      ... and " ++ (toString ((leg.steps.getD []).length - 3) ++ " more steps"))
        ∈ step_lines leg) ∧
    step_lines fiveStepLeg =
      ["    Directions (first 3 steps):", "      1. STRAIGHT: a",
       "      2. STRAIGHT: b", "      3. STRAIGHT: c", "      ... and 2 more steps"] := by
  refine ⟨?_, ?_, ?_, by decide⟩
  · intro x hx
    unfold step_lines at hx
    by_cases he : (leg.steps.getD []).isEmpty
    · rw [if_pos he] at hx; cases hx
    · rw [if_neg he] at hx
      rcases List.mem_cons.mp hx with hx | hx
      · exact Or.inl hx
      rcases List.mem_append.mp hx with hx | hx
      · rcases (mem_render_steps_iff 1 _).mp hx with ⟨j, s, hj, hxs⟩
        have hj3 : j < 3 := by
          rcases List.get?_eq_some.mp hj with ⟨hlt, _⟩
          have hlen := List.length_take 3 (leg.steps.getD [])
          omega
        rw [List.get?_take hj3] at hj
        refine Or.inr (Or.inl ⟨j, s, hj3, hj, ?_⟩)
        rw [show j + 1 = 1 + j by omega]
        exact hxs
      · by_cases hl : 3 < (leg.steps.getD []).length
        · rw [if_pos hl] at hx
          exact Or.inr (Or.inr ⟨hl, List.mem_singleton.mp hx⟩)
        · rw [if_neg hl] at hx; cases hx
  · intro j s hj3 hget x hx
    unfold step_lines
    have hne : ¬((leg.steps.getD []).isEmpty = true) := by
      cases hs : (leg.steps.getD []) with
      | nil => rw [hs] at hget; cases hget
      | cons a l => simp
    rw [if_neg hne]
    apply List.mem_cons_of_mem
    apply List.mem_append_left
    apply (mem_render_steps_iff 1 _).mpr
    refine ⟨j, s, ?_, ?_⟩
    · rw [List.get?_take hj3]
      exact hget
    · rw [show 1 + j = j + 1 by omega]
      exact hx
  · intro hl
    unfold step_lines
    have hne : ¬((leg.steps.getD []).isEmpty = true) := by
      cases hs : (leg.steps.getD []) with
      | nil => rw [hs] at hl; simp at hl
      | cons a l => simp
    rw [if_neg hne]
    apply List.mem_cons_of_mem
    apply List.mem_append_right
    rw [if_pos hl]
    simp

/-- Witness for `c6_step_truncation`: the first step of the five-step leg is
rendered with index 1 and default maneuver. -/
theorem c6_witness : "      1. STRAIGHT: a" ∈ step_lines fiveStepLeg :=
  (c6_step_truncation fiveStepLeg).2.1 0 (mkStep "a") (by decide) (by decide)
    "      1. STRAIGHT: a" (by decide)

/-- Counterexample to C7 as stated: on a malformed (non-JSON) body the
`except requests.exceptions.RequestException` clause on line 87 catches
requests' `JSONDecodeError` — a `RequestException` subclass since requests
2.27 — before the `except json.JSONDecodeError` clause on line 89 can, so
the returned message is `"API request failed: <cause>"`, not the claimed
distinct `"Invalid JSON response: <cause>"`. -/
theorem c7_counterexample :
    compute_routes "o" "d" none none "now"
        (.jsonDecodeError "Expecting value: line 1 column 1 (char 0)")
      = mkError "API request failed: Expecting value: line 1 column 1 (char 0)" ∧
    compute_routes "o" "d" none none "now"
        (.jsonDecodeError "Expecting value: line 1 column 1 (char 0)")
      ≠ mkError "Invalid JSON response: Expecting value: line 1 column 1 (char 0)" := by
  decide

/-- C7 amended: every failure of the request sequence — a transport or
timeout failure, a non-2xx status turned into `HTTPError` by
`raise_for_status`, and a malformed (non-JSON) body, whose
`requests.exceptions.JSONDecodeError` is itself a `RequestException`
subclass caught by the first except clause — maps to the single bucket
`Err "API request failed: <cause>"`, returned as an error dictionary and
never raised (the embedded `compute_routes` is a total function into
`ResultDict`); no call of `compute_routes` returns an
`"Invalid JSON response: <cause>"` message, the line-89 handler being
unreachable. -/
theorem c7_error_taxonomy (origin destination : String) (dep arr : Option String)
    (now cause : String) :
    compute_routes origin destination dep arr now (.jsonDecodeError cause)
        = mkError ("API request failed: " ++ cause) ∧
    compute_routes origin destination dep arr now (.transportError cause)
        = mkError ("API request failed: " ++ cause) ∧
    compute_routes origin destination dep arr now (.httpStatusError cause)
        = mkError ("API request failed: " ++ cause) ∧
    (∀ (outcome : HttpOutcome) (c : String),
      (compute_routes origin destination dep arr now outcome).error
        ≠ some ("Invalid JSON response: " ++ c)) := by
  refine ⟨rfl, rfl, rfl, ?_⟩
  intro outcome c hc
  cases outcome with
  | transportError c2 =>
    simp only [compute_routes, mkError, Option.some.injEq] at hc
    exact append_clash hc 0 'A' 'I' rfl rfl (by decide)
  | httpStatusError c2 =>
    simp only [compute_routes, mkError, Option.some.injEq] at hc
    exact append_clash hc 0 'A' 'I' rfl rfl (by decide)
  | jsonDecodeError c2 =>
    simp only [compute_routes, mkError, Option.some.injEq] at hc
    exact append_clash hc 0 'A' 'I' rfl rfl (by decide)
  | okResponse data =>
    cases hr : data.routes with
    | none =>
      simp only [compute_routes, hr, mkError, Option.some.injEq] at hc
      exact append_clash_lit hc.symm 0 'I' 'N' rfl rfl (by decide)
    | some rs =>
      cases rs with
      | nil =>
        simp only [compute_routes, hr, mkError, List.isEmpty_nil, if_true,
          Option.some.injEq] at hc
        exact append_clash_lit hc.symm 0 'I' 'N' rfl rfl (by decide)
      | cons a l =>
        simp [compute_routes, hr, mkError] at hc

/-- C8: on an error result the formatter returns the single line
`"❌ Error: <message>"` — the message verbatim after the error marker, and
(for a message without a newline, as all messages `compute_routes` builds
from single-line causes are) no second line. -/
theorem c8_error_line (result : ResultDict) (msg : String)
    (h : result.error = some msg) (hnl : '\n' ∉ msg.data) :
    format_route_output result = some ("❌ Error: " ++ msg) ∧
    '\n' ∉ ("❌ Error: " ++ msg).data := by
  constructor
  · simp [format_route_output, h]
  · intro hmem
    rw [String.data_append] at hmem
    rcases List.mem_append.mp hmem with hl | hr
    · exact absurd hl (by decide)
    · exact hnl hr

/-- Witness for `c8_error_line`. -/
theorem c8_witness :
    format_route_output (mkError "No routes found")
        = some ("❌ Error: " ++ "No routes found") ∧
    '\n' ∉ ("❌ Error: " ++ "No routes found").data :=
  c8_error_line (mkError "No routes found") "No routes found" rfl (by decide)

/-- C9: every dictionary `compute_routes` returns has exactly one of two
shapes: an `error` key and nothing else, or `success = True` together with
`time_field`, `time_value` and `routes` and no `error` key.  The two
disjuncts are mutually exclusive (`error` present versus absent). -/
theorem c9_result_shapes (origin destination : String) (dep arr : Option String)
    (now : String) (outcome : HttpOutcome) :
    ((compute_routes origin destination dep arr now outcome).error.isSome ∧
     (compute_routes origin destination dep arr now outcome).success = none ∧
     (compute_routes origin destination dep arr now outcome).time_field = none ∧
     (compute_routes origin destination dep arr now outcome).time_value = none ∧
     (compute_routes origin destination dep arr now outcome).routes = none) ∨
    ((compute_routes origin destination dep arr now outcome).error = none ∧
     (compute_routes origin destination dep arr now outcome).success = some true ∧
     (compute_routes origin destination dep arr now outcome).time_field.isSome ∧
     (compute_routes origin destination dep arr now outcome).time_value.isSome ∧
     (compute_routes origin destination dep arr now outcome).routes.isSome) := by
  cases outcome with
  | transportError c => left; simp [compute_routes, mkError]
  | httpStatusError c => left; simp [compute_routes, mkError]
  | jsonDecodeError c => left; simp [compute_routes, mkError]
  | okResponse data =>
    cases hr : data.routes with
    | none => left; simp [compute_routes, hr, mkError]
    | some rs =>
      cases rs with
      | nil => left; simp [compute_routes, hr, mkError]
      | cons a l => right; simp [compute_routes, hr]

/-- C10: a dictionary with no `error` key whose `success` value is absent or
falsy is formatted as the fixed line `"❌ Failed to compute routes"`. -/
theorem c10_failed_branch (result : ResultDict) (h : result.error = none)
    (hs : result.success = none ∨ result.success = some false) :
    format_route_output result = some "❌ Failed to compute routes" := by
  rcases hs with hs | hs <;> simp [format_route_output, h, hs]

/-- Witness for `c10_failed_branch`. -/
theorem c10_witness :
    format_route_output
        { error := none, success := some false, time_field := none,
          time_value := none, routes := none }
      = some "❌ Failed to compute routes" :=
  c10_failed_branch _ rfl (Or.inr rfl)

end RouteCompare
